import Mathlib

/-!
# ShopSight candidate retrieval, relevance scoring and ranking: a verification development

This file embeds the core search pipeline of the ShopSight backend
(`app/services/confidence_scorer.py`, `app/services/product_search.py`,
`app/api/routes.py`, `app/utils/exceptions.py`) as executable Lean
definitions and proves the specified properties about them.

Modelling conventions:
* Python strings are Lean `String`s, manipulated through their `List Char`
  representation; `str.lower()` is modelled by `Char.toLower` (the inputs of
  interest are ASCII, where the two agree).
* Python floats are modelled as exact rationals `ℚ`; `round(x, 3)` is
  modelled by `round3`, rounding half to even as Python's `round` does.
* The regular expressions used by the matcher have literal bodies
  (`re.escape`d terms), so `re.search` is embedded as a bounded existential
  over all start positions, with `\b` modelled by its definition
  (a position whose two neighbouring characters differ in word-character
  status, with the string edges counting as non-word).
* The DuckDB table is modelled as the list of rows matching the constructed
  predicate, in the engine's result order; `LIMIT n` is `List.take n` and
  `OFFSET k` is `List.drop k`.
-/

namespace ShopSight

/-! ## String primitives (`confidence_scorer.py`) -/

/-- A regex word character (`\w`) for the ASCII inputs of interest:
letters, digits and underscore. -/
def isWordChar (c : Char) : Bool := c.isAlphanum || c == '_'

/-- A regex whitespace character (`\s`), ASCII range: the characters
Python's `\s` matches below `0x80`. -/
def isSpaceChar (c : Char) : Bool :=
  c == ' ' || c == '\t' || c == '\n' || c == '\r' || c == '\x0b' || c == '\x0c'

/-- `str.lower()` on the character list (ASCII case folding). -/
def lower (s : List Char) : List Char := s.map Char.toLower

/-- The literal `w` occurs in `t` starting at position `i`. -/
def matchesAt (t w : List Char) (i : ℕ) : Bool :=
  (t.drop i).take w.length == w

/-- The character at position `i` of `t` is a word character
(positions outside the string count as non-word). -/
def isWordAt (t : List Char) (i : ℕ) : Bool :=
  match t[i]? with
  | some c => isWordChar c
  | none => false

/-- The regex word-boundary assertion `\b` holds at position `i` of `t`:
the character before `i` and the character at `i` differ in
word-character status (string edges count as non-word). -/
def hasBoundaryAt (t : List Char) (i : ℕ) : Bool :=
  (if i = 0 then false else isWordAt t (i - 1)) != isWordAt t i

/-- `ConfidenceScorer._contains_word(text, word)`:
`re.search(r'\b' + re.escape(word.lower()) + r'\b', text.lower())` guarded by
`if not text or not word: return False`. -/
def contains_word (text word : String) : Bool :=
  let tl := text.toList
  let wl := word.toList
  if tl.isEmpty || wl.isEmpty then false
  else
    let t := lower tl
    let w := lower wl
    (List.range (t.length + 1)).any fun i =>
      matchesAt t w i && hasBoundaryAt t i && hasBoundaryAt t (i + w.length)

/-- The left alternative `(^|\s|-)` of the fuzzy pattern consumes position
`i - 1`: start of string, whitespace or hyphen. -/
def looseLeftAt (t : List Char) (i : ℕ) : Bool :=
  i == 0 ||
    (match t[i - 1]? with
     | some c => isSpaceChar c || c == '-'
     | none => false)

/-- The right alternative `($|\s|-)` of the fuzzy pattern at position `j`:
end of string, whitespace or hyphen. -/
def looseRightAt (t : List Char) (j : ℕ) : Bool :=
  j == t.length ||
    (match t[j]? with
     | some c => isSpaceChar c || c == '-'
     | none => false)

/-- `ConfidenceScorer._fuzzy_contains(text, word)`: the empty guard, then
`_contains_word`, then
`re.search(r'(^|\s|-)' + re.escape(word_lower) + r'($|\s|-)', text_lower)`. -/
def fuzzy_contains (text word : String) : Bool :=
  let tl := text.toList
  let wl := word.toList
  if tl.isEmpty || wl.isEmpty then false
  else if contains_word text word then true
  else
    let t := lower tl
    let w := lower wl
    (List.range (t.length + 1)).any fun i =>
      matchesAt t w i && looseLeftAt t i && looseRightAt t (i + w.length)

/-- Python `str.strip()`: drop whitespace from both ends. -/
def pyStrip (s : List Char) : List Char :=
  ((s.dropWhile isSpaceChar).reverse.dropWhile isSpaceChar).reverse

/-- `ConfidenceScorer._exact_match(text, word)`:
`text.lower().strip() == word.lower().strip()` guarded by the empty check. -/
def exact_match (text word : String) : Bool :=
  if text.toList.isEmpty || word.toList.isEmpty then false
  else pyStrip (lower text.toList) == pyStrip (lower word.toList)

/-! ## The spec's characterizations of the two matchers

These two definitions follow the specification's words, to be compared
with the source-derived `contains_word` and `fuzzy_contains` above. -/

/-- The spec's characterization of `wordMatch`: the (nonempty) term occurs in
the text as a complete token, bounded on both sides by non-word characters or
string edges, case-insensitively. -/
def specTokenOccurs (text term : String) : Bool :=
  let t := lower text.toList
  let w := lower term.toList
  !w.isEmpty &&
    (List.range (t.length + 1)).any fun i =>
      matchesAt t w i && (i == 0 || !isWordAt t (i - 1)) && !isWordAt t (i + w.length)

/-- The spec's characterization of the fuzzy fallback: the (nonempty) term
occurs in the text bounded on each side by one of start-of-string,
end-of-string, whitespace, or hyphen, case-insensitively. -/
def specLooseOccurs (text term : String) : Bool :=
  let t := lower text.toList
  let w := lower term.toList
  !w.isEmpty &&
    (List.range (t.length + 1)).any fun i =>
      matchesAt t w i && looseLeftAt t i && looseRightAt t (i + w.length)

/-! ## Relevance scorer (`confidence_scorer.py`) -/

/-- One catalog row, projected onto the columns the scorer and the search
paths read.  Every string field of a row is present (possibly empty). -/
structure Candidate where
  article_id : ℤ := 0
  name : String := ""
  type : String := ""
  color : String := ""
  department : String := ""
  product_group_name : String := ""
  garment_group_name : String := ""
  index_name : String := ""
  perceived_colour_master_name : String := ""
  perceived_colour_value_name : String := ""
  image_url : String := ""
deriving DecidableEq

/-- The parsed query as the scorer reads it: `attributes.get("brand")`,
`attributes.get("type")`, `attributes.get("color")` and the keyword list. -/
structure ParsedQuery where
  brand : Option String := none
  type : Option String := none
  color : Option String := none
  keywords : List String := []
deriving DecidableEq

/-- Python truthiness of an optional string: `None` and `""` are falsy. -/
def falsyOpt : Option String → Bool
  | none => true
  | some s => s.toList.isEmpty

def BRAND_WEIGHT : ℚ := 0.35
def TYPE_WEIGHT : ℚ := 0.30
def COLOR_WEIGHT : ℚ := 0.20
def NAME_WEIGHT : ℚ := 0.15

/-- Round a rational to the nearest integer, half to even (the rounding of
Python's `round`). -/
def roundHalfEven (s : ℚ) : ℤ :=
  if s - (⌊s⌋ : ℚ) < 1/2 then ⌊s⌋
  else if (1 : ℚ)/2 < s - (⌊s⌋ : ℚ) then ⌊s⌋ + 1
  else if ⌊s⌋ % 2 = 0 then ⌊s⌋ else ⌊s⌋ + 1

/-- Python `round(q, 3)` on the exact rational value: scale by 1000 and
round half to even. -/
def round3 (q : ℚ) : ℚ := (roundHalfEven (1000 * q) : ℚ) / 1000

/-- `ConfidenceScorer._score_brand`. -/
def _score_brand (product : Candidate) (expected_brand : Option String) : ℚ :=
  if falsyOpt expected_brand then 0.5
  else
    let b := expected_brand.getD ""
    if contains_word product.name b then 1.0
    else if contains_word product.index_name b then 0.9
    else if contains_word product.department b then 0.6
    else 0.0

/-- `ConfidenceScorer._score_type`. -/
def _score_type (product : Candidate) (expected_type : Option String) : ℚ :=
  if falsyOpt expected_type then 0.5
  else
    let ty := expected_type.getD ""
    if exact_match product.type ty then 1.0
    else if fuzzy_contains product.type ty then 0.95
    else if contains_word product.name ty then 0.9
    else if fuzzy_contains product.product_group_name ty then 0.7
    else if fuzzy_contains product.garment_group_name ty then 0.5
    else 0.0

/-- `ConfidenceScorer._score_color`. -/
def _score_color (product : Candidate) (expected_color : Option String) : ℚ :=
  if falsyOpt expected_color then 0.5
  else
    let co := expected_color.getD ""
    if exact_match product.color co then 1.0
    else if fuzzy_contains product.color co then 0.95
    else if fuzzy_contains product.perceived_colour_master_name co then 0.9
    else if fuzzy_contains product.perceived_colour_value_name co then 0.8
    else if contains_word product.name co then 0.7
    else 0.0

/-- `ConfidenceScorer._score_name`: keyword hit ratios against the name and
type fields, combined `0.7 / 0.3` and capped at 1. -/
def _score_name (product : Candidate) (keywords : List String) : ℚ :=
  if keywords.isEmpty then 0.5
  else
    let total_keywords := keywords.length
    let matched_in_name := keywords.countP fun k => contains_word product.name k
    let matched_in_type := keywords.countP fun k => contains_word product.type k
    let name_ratio : ℚ := (matched_in_name : ℚ) / (total_keywords : ℚ)
    let type_ratio : ℚ := (matched_in_type : ℚ) / (total_keywords : ℚ)
    let score := name_ratio * 0.7 + type_ratio * 0.3
    min 1.0 score

/-- `ConfidenceScorer.score_product`: the weighted sum of the four
sub-scores, clamped to `[0, 1]` and rounded to 3 decimal places. -/
def score_product (product : Candidate) (parsed_query : ParsedQuery) : ℚ :=
  let brand_score := _score_brand product parsed_query.brand
  let type_score := _score_type product parsed_query.type
  let color_score := _score_color product parsed_query.color
  let name_score := _score_name product parsed_query.keywords
  let confidence :=
    brand_score * BRAND_WEIGHT + type_score * TYPE_WEIGHT +
      color_score * COLOR_WEIGHT + name_score * NAME_WEIGHT
  round3 (max 0.0 (min 1.0 confidence))

/-- A candidate together with its attached `confidence_score`
(the records produced by `score_products_batch`). -/
structure Scored where
  product : Candidate
  confidence_score : ℚ
deriving DecidableEq

/-- `ConfidenceScorer.score_products_batch`. -/
def score_products_batch (products : List Candidate) (parsed_query : ParsedQuery) :
    List Scored :=
  products.map fun p => ⟨p, score_product p parsed_query⟩

/-- The end-to-end scenario's parsed query: attributes
`brand = "Nike"`, `type = "shoes"`, keywords `["Nike","running","shoes"]`. -/
def nikeQuery : ParsedQuery :=
  { brand := some "Nike", type := some "shoes", color := none,
    keywords := ["Nike", "running", "shoes"] }

/-- The matching candidate of the end-to-end scenario. -/
def nikeShoe : Candidate :=
  { article_id := 1, name := "Nike Running Shoes Elite", type := "Shoes" }

/-- The non-matching candidate of the end-to-end scenario (every other
string field empty). -/
def jannikeWedge : Candidate :=
  { article_id := 2, name := "Jannike wedge NEW", type := "Wedge" }

/-- A small concrete scored list used to instantiate the ranking theorem:
two candidates tied at confidence 0.9 and one at 0.2. -/
def rankWitnessInput : List Scored :=
  [⟨{ article_id := 1 }, 0.9⟩, ⟨{ article_id := 2 }, 0.9⟩,
   ⟨{ article_id := 3 }, 0.2⟩]

/-! ## Result ranking and pagination (`product_search.py`) -/

/-- Stable insertion used to model Python's stable
`list.sort(key=confidence, reverse=True)`: `x` (originally earlier than
everything in the already-sorted tail) is placed before the first element
whose confidence does not exceed `x`'s, hence after every strictly greater
element and before every equal one. -/
def insertDesc (x : Scored) : List Scored → List Scored
  | [] => [x]
  | y :: ys =>
    if y.confidence_score ≤ x.confidence_score then x :: y :: ys
    else y :: insertDesc x ys

/-- The stable descending-by-confidence sort.  Python's `list.sort` is
stable, and a stable sort's output is uniquely determined by the key order
and the input order, so this insertion sort models it exactly. -/
def sortByConfidenceDesc : List Scored → List Scored
  | [] => []
  | x :: xs => insertDesc x (sortByConfidenceDesc xs)

/-- The filter-then-sort step of `search_with_confidence`: keep candidates
with `confidence_score >= min_confidence`, then sort descending. -/
def rankCandidates (scored : List Scored) (min_confidence : ℚ) : List Scored :=
  sortByConfidenceDesc (scored.filter fun p => min_confidence ≤ p.confidence_score)

/-- The pagination slice `filtered_products[start:end]` with
`start = (page - 1) * page_size`, `end = start + page_size`. -/
def paginate (l : List Scored) (page page_size : ℕ) : List Scored :=
  (l.drop ((page - 1) * page_size)).take page_size

/-- The ranking step of `search_with_confidence` (filter by minimum
confidence, stable descending sort, `total_count`, slice): returns the
requested page and `total_count`. -/
def rank_and_paginate (scored : List Scored) (min_confidence : ℚ)
    (page page_size : ℕ) : List Scored × ℕ :=
  let filtered := rankCandidates scored min_confidence
  (paginate filtered page page_size, filtered.length)

/-- The candidate cap of `search_with_confidence`:
`min(500, page_size * 25)`. -/
def candidate_limit (page_size : ℕ) : ℕ := min 500 (page_size * 25)

/-- `ProductSearchService.search_with_confidence`, over the list of catalog
rows matching the built predicate (in the engine's result order): fetch up
to `candidate_limit` rows (`LIMIT`, no offset), score them, then filter,
sort and slice. -/
def search_with_confidence (matching_rows : List Candidate)
    (parsed_query : ParsedQuery) (page page_size : ℕ) (min_confidence : ℚ) :
    List Scored × ℕ :=
  let candidates := matching_rows.take (candidate_limit page_size)
  rank_and_paginate (score_products_batch candidates parsed_query)
    min_confidence page page_size

/-- `ProductSearchService.search` (the plain path), over the list of
matching rows: `LIMIT page_size OFFSET (page-1)*page_size` plus the
exhaustive count of the same predicate. -/
def search (matching_rows : List Candidate) (page page_size : ℕ) :
    List Candidate × ℕ :=
  ((matching_rows.drop ((page - 1) * page_size)).take page_size,
    matching_rows.length)

/-! ## Pagination metadata (`routes.py`) and identity lookup -/

/-- The pagination metadata computed in `search_products`:
`total_pages = (total_count + page_size - 1) // page_size`,
`has_next = page < total_pages`, `has_prev = page > 1`. -/
def pagination_meta (total_count page page_size : ℕ) : ℕ × Bool × Bool :=
  let total_pages := (total_count + page_size - 1) / page_size
  (total_pages, decide (page < total_pages), decide (1 < page))

/-- The exception taxonomy of `app/utils/exceptions.py`, restricted to what
the search core raises. -/
inductive ShopSightException where
  | productNotFound (msg : String)
deriving DecidableEq

/-- `ProductSearchService.get_by_id`, over the list of catalog rows: the
rows with `article_id = ?` are fetched; zero rows raises
`ProductNotFoundException`, otherwise the first row is returned. -/
def get_by_id (rows : List Candidate) (article_id : ℤ) :
    Except ShopSightException Candidate :=
  match rows.filter fun r => r.article_id == article_id with
  | [] =>
    Except.error (ShopSightException.productNotFound
      ("Product with ID " ++ toString article_id ++ " not found"))
  | r :: _ => Except.ok r

/-! ## Predicate construction (`_build_where_clause`) -/

/-- `String.lower` lifted back to `String`. -/
def lowerStr (s : String) : String := String.mk (lower s.toList)

/-- `filters.get(key)` followed by Python truthiness: absent and empty
values are both discarded. -/
def presentFilter (filters : String → Option String) (key : String) :
    Option String :=
  match filters key with
  | some v => if v.toList.isEmpty then none else some v
  | none => none

/-- `ProductSearchService._build_where_clause`: the keyword disjunction
(each keyword as a case-insensitive `LIKE` on name or type, two parameters
per keyword) and the filter conjunction (case-insensitive equality for the
present filters among `department`, `color`, `type`, in that order),
combined with `AND`; `1=1` when both groups are empty. -/
def _build_where_clause (keywords : List String)
    (filters : String → Option String) : String × List String :=
  let keyword_clauses := keywords.map fun _ =>
    "(LOWER(prod_name) LIKE ? OR LOWER(product_type_name) LIKE ?)"
  let keyword_params := keywords.flatMap fun k =>
    ["%" ++ lowerStr k ++ "%", "%" ++ lowerStr k ++ "%"]
  let deptPart :=
    match presentFilter filters "department" with
    | some v => [("LOWER(department_name) = ?", lowerStr v)]
    | none => []
  let colorPart :=
    match presentFilter filters "color" with
    | some v => [("LOWER(colour_group_name) = ?", lowerStr v)]
    | none => []
  let typePart :=
    match presentFilter filters "type" with
    | some v => [("LOWER(product_type_name) = ?", lowerStr v)]
    | none => []
  let filter_clauses := (deptPart ++ colorPart ++ typePart).map Prod.fst
  let filter_params := (deptPart ++ colorPart ++ typePart).map Prod.snd
  let where_parts :=
    (if keyword_clauses.isEmpty then []
     else [" OR ".intercalate keyword_clauses |> fun s => "(" ++ s ++ ")"]) ++
    (if filter_clauses.isEmpty then []
     else [" AND ".intercalate filter_clauses])
  let where_sql :=
    if where_parts.isEmpty then "1=1" else " AND ".intercalate where_parts
  (where_sql, keyword_params ++ filter_params)

/-! ## Basic facts about the stable descending sort -/

/-- The relation the ranker sorts by: earlier elements have the larger
confidence. -/
def descBy (a b : Scored) : Prop := b.confidence_score ≤ a.confidence_score

lemma insertDesc_perm (x : Scored) (l : List Scored) :
    List.Perm (insertDesc x l) (x :: l) := by
  induction l with
  | nil => simp [insertDesc]
  | cons y ys ih =>
    unfold insertDesc
    by_cases h : y.confidence_score ≤ x.confidence_score
    · rw [if_pos h]
    · rw [if_neg h]
      exact (List.Perm.cons y ih).trans (List.Perm.swap x y ys)

lemma sortByConfidenceDesc_perm (l : List Scored) :
    List.Perm (sortByConfidenceDesc l) l := by
  induction l with
  | nil => rfl
  | cons x xs ih =>
    exact (insertDesc_perm x (sortByConfidenceDesc xs)).trans (List.Perm.cons x ih)

lemma sortByConfidenceDesc_length (l : List Scored) :
    (sortByConfidenceDesc l).length = l.length :=
  (sortByConfidenceDesc_perm l).length_eq

lemma insertDesc_pairwise (x : Scored) {l : List Scored}
    (h : l.Pairwise descBy) : (insertDesc x l).Pairwise descBy := by
  induction l with
  | nil => simp [insertDesc, descBy]
  | cons y ys ih =>
    rw [List.pairwise_cons] at h
    unfold insertDesc
    by_cases hc : y.confidence_score ≤ x.confidence_score
    · rw [if_pos hc]
      refine List.Pairwise.cons ?_ (List.Pairwise.cons h.1 h.2)
      intro z hz
      rcases List.mem_cons.mp hz with rfl | hz
      · exact hc
      · exact le_trans (h.1 z hz) hc
    · rw [if_neg hc]
      refine List.Pairwise.cons ?_ (ih h.2)
      intro z hz
      have hz' := (insertDesc_perm x ys).mem_iff.mp hz
      rcases List.mem_cons.mp hz' with rfl | hz''
      · exact le_of_lt (lt_of_not_le hc)
      · exact h.1 z hz''

lemma sortByConfidenceDesc_pairwise (l : List Scored) :
    (sortByConfidenceDesc l).Pairwise descBy := by
  induction l with
  | nil => simp [sortByConfidenceDesc]
  | cons x xs ih => exact insertDesc_pairwise x ih

lemma insertDesc_filter_eq (x : Scored) (l : List Scored) (c : ℚ) :
    (insertDesc x l).filter (fun p => p.confidence_score == c) =
      if x.confidence_score == c
      then x :: l.filter (fun p => p.confidence_score == c)
      else l.filter (fun p => p.confidence_score == c) := by
  induction l with
  | nil =>
    unfold insertDesc
    cases hx : (x.confidence_score == c) <;> simp [List.filter, hx]
  | cons y ys ih =>
    unfold insertDesc
    by_cases hc : y.confidence_score ≤ x.confidence_score
    · rw [if_pos hc]
      by_cases hx : x.confidence_score = c
      · simp [List.filter_cons, hx]
      · simp [List.filter_cons, hx]
    · rw [if_neg hc]
      have hlt : x.confidence_score < y.confidence_score := lt_of_not_le hc
      by_cases hx : x.confidence_score = c
      · have hy : ¬ y.confidence_score = c := by
          intro h; exact absurd (hx ▸ h ▸ hlt) (lt_irrefl _)
        simp [List.filter_cons, hx, hy, ih]
      · by_cases hy : y.confidence_score = c
        · simp [List.filter_cons, hx, hy, ih]
        · simp [List.filter_cons, hx, hy, ih]

lemma sortByConfidenceDesc_filter_eq (l : List Scored) (c : ℚ) :
    (sortByConfidenceDesc l).filter (fun p => p.confidence_score == c) =
      l.filter (fun p => p.confidence_score == c) := by
  induction l with
  | nil => rfl
  | cons x xs ih =>
    unfold sortByConfidenceDesc
    rw [insertDesc_filter_eq, ih]
    by_cases hx : x.confidence_score = c
    · simp [List.filter_cons, hx]
    · simp [List.filter_cons, hx]

/-! ## Bounds of the rounding step -/

lemma roundHalfEven_bounds (s : ℚ) :
    ⌊s⌋ ≤ roundHalfEven s ∧ roundHalfEven s ≤ ⌊s⌋ + 1 := by
  unfold roundHalfEven
  split_ifs <;> omega

lemma roundHalfEven_le_of_le (s : ℚ) (b : ℤ) (hs : s ≤ (b : ℚ)) :
    roundHalfEven s ≤ b := by
  have hfl : ⌊s⌋ ≤ b := Int.floor_le_floor hs |>.trans_eq (Int.floor_intCast b)
  unfold roundHalfEven
  split_ifs with h1 h2 h3
  · exact hfl
  · have hhalf : (1 : ℚ)/2 ≤ s - (⌊s⌋ : ℚ) := not_lt.mp h1
    have : (⌊s⌋ : ℚ) + 1/2 ≤ (b : ℚ) := by linarith
    have hlt : ⌊s⌋ < b := by
      by_contra hc
      have hbe : b ≤ ⌊s⌋ := not_lt.mp hc
      have : (b : ℚ) ≤ (⌊s⌋ : ℚ) := by exact_mod_cast hbe
      linarith
    omega
  · exact hfl
  · have hhalf : (1 : ℚ)/2 ≤ s - (⌊s⌋ : ℚ) := not_lt.mp h1
    have : (⌊s⌋ : ℚ) + 1/2 ≤ (b : ℚ) := by linarith
    have hlt : ⌊s⌋ < b := by
      by_contra hc
      have hbe : b ≤ ⌊s⌋ := not_lt.mp hc
      have : (b : ℚ) ≤ (⌊s⌋ : ℚ) := by exact_mod_cast hbe
      linarith
    omega

lemma round3_mem_unit (q : ℚ) (h0 : 0 ≤ q) (h1 : q ≤ 1) :
    0 ≤ round3 q ∧ round3 q ≤ 1 := by
  have hs0 : (0 : ℚ) ≤ 1000 * q := by positivity
  have hs1 : 1000 * q ≤ ((1000 : ℤ) : ℚ) := by push_cast; linarith
  have hf0 : (0 : ℤ) ≤ ⌊(1000 : ℚ) * q⌋ := Int.floor_nonneg.mpr hs0
  have hn0 : (0 : ℤ) ≤ roundHalfEven (1000 * q) :=
    hf0.trans (roundHalfEven_bounds (1000 * q)).1
  have hn1 : roundHalfEven (1000 * q) ≤ 1000 :=
    roundHalfEven_le_of_le (1000 * q) 1000 hs1
  unfold round3
  constructor
  · positivity
  · rw [div_le_one (by norm_num)]
    exact_mod_cast hn1

/-! ## Word-boundary versus the spec's token characterization -/

lemma char_toNat_ofNat {n : ℕ} (h : n < 55296) : (Char.ofNat n).toNat = n := by
  unfold Char.ofNat
  rw [dif_pos (Or.inl h)]
  rfl

lemma toLower_toNat_of_upper {c : Char} (h1 : 65 ≤ c.toNat) (h2 : c.toNat ≤ 90) :
    c.toLower.toNat = c.toNat + 32 := by
  unfold Char.toLower
  rw [if_pos ⟨h1, h2⟩]
  exact char_toNat_ofNat (by omega)

lemma toLower_eq_self_of_not_upper {c : Char}
    (h : ¬ (65 ≤ c.toNat ∧ c.toNat ≤ 90)) : c.toLower = c := by
  unfold Char.toLower
  rw [if_neg h]

lemma val_le_iff {c : Char} {n : UInt32} : (c.val ≤ n) ↔ (c.toNat ≤ n.toNat) := by
  rw [UInt32.le_def, BitVec.le_def]
  exact Iff.rfl

lemma le_val_iff {c : Char} {n : UInt32} : (n ≤ c.val) ↔ (n.toNat ≤ c.toNat) := by
  rw [UInt32.le_def, BitVec.le_def]
  exact Iff.rfl

lemma isWordChar_eq_toNat (c : Char) :
    isWordChar c = decide ((65 ≤ c.toNat ∧ c.toNat ≤ 90) ∨
      (97 ≤ c.toNat ∧ c.toNat ≤ 122) ∨ (48 ≤ c.toNat ∧ c.toNat ≤ 57) ∨
      c.toNat = 95) := by
  have hund : (c == '_') = decide (c.toNat = 95) := by
    rw [Bool.eq_iff_iff]
    simp only [beq_iff_eq, decide_eq_true_eq]
    constructor
    · intro h; subst h; rfl
    · intro h
      refine Char.ext (UInt32.eq_of_toBitVec_eq (BitVec.eq_of_toNat_eq ?_))
      show c.toNat = ('_' : Char).toNat
      rw [h]; rfl
  rw [Bool.eq_iff_iff]
  unfold isWordChar Char.isAlphanum Char.isAlpha Char.isUpper Char.isLower
    Char.isDigit
  rw [hund]
  simp only [Bool.or_eq_true, decide_eq_true_eq, ge_iff_le, le_val_iff,
    val_le_iff]
  norm_num
  constructor
  · rintro (((⟨a, b⟩ | ⟨a, b⟩) | ⟨a, b⟩) | h)
    · exact Or.inl ⟨a, b⟩
    · exact Or.inr (Or.inl ⟨a, b⟩)
    · exact Or.inr (Or.inr (Or.inl ⟨a, b⟩))
    · exact Or.inr (Or.inr (Or.inr h))
  · rintro (⟨a, b⟩ | (⟨a, b⟩ | (⟨a, b⟩ | h)))
    · exact Or.inl (Or.inl (Or.inl ⟨a, b⟩))
    · exact Or.inl (Or.inl (Or.inr ⟨a, b⟩))
    · exact Or.inl (Or.inr ⟨a, b⟩)
    · exact Or.inr h

/-- Lowercasing never turns a word character into a non-word character. -/
lemma isWordChar_toLower_of {c : Char} (h : isWordChar c = true) :
    isWordChar c.toLower = true := by
  by_cases hu : 65 ≤ c.toNat ∧ c.toNat ≤ 90
  · rw [isWordChar_eq_toNat, decide_eq_true_eq]
    rw [toLower_toNat_of_upper hu.1 hu.2]
    exact Or.inr (Or.inl (by omega))
  · rw [toLower_eq_self_of_not_upper hu]
    exact h

lemma matchesAt_getElem {t w : List Char} {i : ℕ} (h : matchesAt t w i = true)
    {k : ℕ} (hk : k < w.length) : t[i + k]? = w[k]? := by
  unfold matchesAt at h
  have he : (t.drop i).take w.length = w := by simpa using h
  conv_rhs => rw [← he]
  rw [List.getElem?_take_of_lt hk, List.getElem?_drop]

lemma isWordAt_match_first {t w : List Char} {i : ℕ}
    (hm : matchesAt t w i = true) (hw : w ≠ [])
    (hwc : ∀ c ∈ w, isWordChar c = true) : isWordAt t i = true := by
  have h0 : 0 < w.length := List.length_pos.mpr hw
  have hg := matchesAt_getElem hm h0
  rw [Nat.add_zero] at hg
  have hw0 : w[0]? = some (w.get ⟨0, h0⟩) := by
    simp [List.getElem?_eq_getElem h0]
  unfold isWordAt
  rw [hg, hw0]
  exact hwc _ (List.get_mem w 0 h0)

lemma isWordAt_match_last {t w : List Char} {i : ℕ}
    (hm : matchesAt t w i = true) (hw : w ≠ [])
    (hwc : ∀ c ∈ w, isWordChar c = true) :
    isWordAt t (i + w.length - 1) = true := by
  have h0 : 0 < w.length := List.length_pos.mpr hw
  have hk : w.length - 1 < w.length := by omega
  have hg := matchesAt_getElem hm hk
  have hidx : i + w.length - 1 = i + (w.length - 1) := by omega
  have hwlast : w[w.length - 1]? = some (w.get ⟨w.length - 1, hk⟩) := by
    simp [List.getElem?_eq_getElem hk]
  unfold isWordAt
  rw [hidx, hg, hwlast]
  exact hwc _ (List.get_mem w (w.length - 1) hk)

lemma matchesAt_nil {w : List Char} (hw : w ≠ []) (i : ℕ) :
    matchesAt [] w i = false := by
  unfold matchesAt
  simp only [List.drop_nil, List.take_nil]
  rw [beq_eq_false_iff_ne]
  exact fun h => hw h.symm

lemma any_range_nil_token (w : List Char) (hw : w ≠ []) :
    ((List.range (([] : List Char).length + 1)).any fun i =>
      matchesAt [] w i && (i == 0 || !isWordAt [] (i - 1)) &&
        !isWordAt [] (i + w.length)) = false := by
  simp [matchesAt_nil hw]

lemma any_range_nil_loose (w : List Char) (hw : w ≠ []) :
    ((List.range (([] : List Char).length + 1)).any fun i =>
      matchesAt [] w i && looseLeftAt [] i &&
        looseRightAt [] (i + w.length)) = false := by
  simp [matchesAt_nil hw]

/-- At a position where an all-word-character term matches, the `\b`
boundary condition coincides with the spec's "non-word character or string
edge" condition. -/
lemma strict_eq_spec_at (t w : List Char) (hw : w ≠ [])
    (hwc : ∀ c ∈ w, isWordChar c = true) (i : ℕ) :
    (matchesAt t w i && hasBoundaryAt t i && hasBoundaryAt t (i + w.length)) =
    (matchesAt t w i && (i == 0 || !isWordAt t (i - 1)) &&
      !isWordAt t (i + w.length)) := by
  cases hm : matchesAt t w i with
  | false => simp [hm]
  | true =>
    simp only [hm, Bool.true_and]
    have hfirst := isWordAt_match_first hm hw hwc
    have hlast := isWordAt_match_last hm hw hwc
    have h1 : hasBoundaryAt t i = (i == 0 || !isWordAt t (i - 1)) := by
      unfold hasBoundaryAt
      rw [hfirst]
      by_cases h0 : i = 0
      · subst h0; simp
      · simp [h0]
    have h2 : hasBoundaryAt t (i + w.length) = !isWordAt t (i + w.length) := by
      unfold hasBoundaryAt
      have hne : ¬ (i + w.length = 0) := by
        have := List.length_pos.mpr hw; omega
      rw [if_neg hne, hlast]
      simp
    rw [h1, h2]

/-! ## Claim theorems -/

/-- **C1**: for every product and parsed query, `score_product` returns a
confidence `c` with `0 ≤ c ≤ 1`, and `c` is exactly the weighted sum
`0.35*brand + 0.30*type + 0.20*color + 0.15*keyword` of the four
sub-scores, clamped to `[0, 1]` and rounded to 3 decimal places. -/
theorem score_product_bounds (product : Candidate) (parsed_query : ParsedQuery) :
    0 ≤ score_product product parsed_query ∧
    score_product product parsed_query ≤ 1 ∧
    score_product product parsed_query =
      round3 (max 0 (min 1
        (0.35 * _score_brand product parsed_query.brand +
         0.30 * _score_type product parsed_query.type +
         0.20 * _score_color product parsed_query.color +
         0.15 * _score_name product parsed_query.keywords))) := by
  have hc0 : (0 : ℚ) ≤ max 0.0 (min 1.0
      (_score_brand product parsed_query.brand * BRAND_WEIGHT +
       _score_type product parsed_query.type * TYPE_WEIGHT +
       _score_color product parsed_query.color * COLOR_WEIGHT +
       _score_name product parsed_query.keywords * NAME_WEIGHT)) := by
    norm_num
  have hc1 : max 0.0 (min 1.0
      (_score_brand product parsed_query.brand * BRAND_WEIGHT +
       _score_type product parsed_query.type * TYPE_WEIGHT +
       _score_color product parsed_query.color * COLOR_WEIGHT +
       _score_name product parsed_query.keywords * NAME_WEIGHT)) ≤ 1 := by
    apply max_le (by norm_num)
    exact (min_le_left _ _).trans (by norm_num)
  have hb := round3_mem_unit _ hc0 hc1
  refine ⟨hb.1, hb.2, ?_⟩
  show round3 _ = round3 _
  congr 1
  unfold BRAND_WEIGHT TYPE_WEIGHT COLOR_WEIGHT NAME_WEIGHT
  norm_num
  ring_nf

/-- **C2 counterexample**: `_contains_word "a-b" "-"` returns true (the
regex `\b\-\b` matches between the word characters `a` and `b`), yet `-`
does not occur in `a-b` bounded on both sides by non-word characters or
string edges — so "returns true exactly when the term occurs as a token
bounded by non-word characters or string edges" fails as stated for terms
containing non-word characters. -/
theorem contains_word_spec_counterexample :
    contains_word "a-b" "-" = true ∧ specTokenOccurs "a-b" "-" = false :=
  ⟨by decide, by decide⟩

/-- **C2 (amended)**: for every text and every nonempty term consisting
entirely of word characters, `_contains_word` returns true exactly when the
term occurs in the text as a complete token bounded on both sides by
non-word characters or string edges, case-insensitively; in particular
`wordMatch("Jannike wedge", "Nike")` is false, `wordMatch("Nike shoes",
"Nike")` is true, and `wordMatch("NIKE SHOES", "nike")` is true. -/
theorem contains_word_token_characterization (text word : String)
    (hw : word.toList ≠ []) (hwc : ∀ c ∈ word.toList, isWordChar c = true) :
    contains_word text word = specTokenOccurs text word ∧
    contains_word "Jannike wedge" "Nike" = false ∧
    contains_word "Nike shoes" "Nike" = true ∧
    contains_word "NIKE SHOES" "nike" = true := by
  refine ⟨?_, by decide, by decide, by decide⟩
  have hwl : lower word.toList ≠ [] := fun h => hw (List.map_eq_nil_iff.mp h)
  have hwcl : ∀ c ∈ lower word.toList, isWordChar c = true := by
    intro c hc
    obtain ⟨d, hd, rfl⟩ := List.mem_map.mp hc
    exact isWordChar_toLower_of (hwc d hd)
  have hwe : word.toList.isEmpty = false := List.isEmpty_eq_false.mpr hw
  have hlowe : (lower word.toList).isEmpty = false :=
    List.isEmpty_eq_false.mpr hwl
  by_cases ht : text.toList.isEmpty
  · have htl : text.toList = [] := List.isEmpty_iff.mp ht
    simp only [contains_word, specTokenOccurs, htl, List.isEmpty_nil,
      Bool.true_or, if_true, hlowe, Bool.not_false, Bool.true_and]
    exact (any_range_nil_token (lower word.toList) hwl).symm
  · have hte : text.toList.isEmpty = false := Bool.eq_false_iff.mpr ht
    simp only [contains_word, specTokenOccurs, hte, hwe, Bool.or_self,
      Bool.false_eq_true, if_false, hlowe, Bool.not_false, Bool.true_and]
    exact congrArg (List.any (List.range ((lower text.toList).length + 1)))
      (funext (strict_eq_spec_at (lower text.toList) (lower word.toList)
        hwl hwcl))

/-- Witness for **C2 (amended)** at `text = "Jannike wedge"`,
`word = "Nike"`. -/
theorem contains_word_token_characterization_witness :
    ("Nike".toList ≠ [] ∧ (∀ c ∈ "Nike".toList, isWordChar c = true)) ∧
    (contains_word "Jannike wedge" "Nike" =
        specTokenOccurs "Jannike wedge" "Nike" ∧
      contains_word "Jannike wedge" "Nike" = false ∧
      contains_word "Nike shoes" "Nike" = true ∧
      contains_word "NIKE SHOES" "nike" = true) :=
  ⟨⟨by decide, by decide⟩,
    contains_word_token_characterization "Jannike wedge" "Nike"
      (by decide) (by decide)⟩

/-- **C3**: `_fuzzy_contains` returns true iff the word matcher succeeds OR
the term occurs in the text bounded on each side by one of start-of-string,
end-of-string, whitespace, or hyphen; in particular
`fuzzyMatch("running-shoes", "running")` is true and
`fuzzyMatch("running-shoes", "shoe")` is false. -/
theorem fuzzy_contains_characterization (text word : String) :
    fuzzy_contains text word =
      (contains_word text word || specLooseOccurs text word) ∧
    fuzzy_contains "running-shoes" "running" = true ∧
    fuzzy_contains "running-shoes" "shoe" = false := by
  refine ⟨?_, by decide, by decide⟩
  by_cases hw : word.toList.isEmpty
  · have hwl : word.toList = [] := List.isEmpty_iff.mp hw
    have hwd : word.data = [] := hwl
    simp [fuzzy_contains, contains_word, specLooseOccurs, hwd, lower,
      matchesAt]
  · have hwe : word.toList.isEmpty = false := Bool.eq_false_iff.mpr hw
    have hwl : word.toList ≠ [] := List.isEmpty_eq_false.mp hwe
    have hlowne : lower word.toList ≠ [] := fun h => hwl (List.map_eq_nil_iff.mp h)
    have hlowe : (lower word.toList).isEmpty = false :=
      List.isEmpty_eq_false.mpr hlowne
    by_cases ht : text.toList.isEmpty
    · have htl : text.toList = [] := List.isEmpty_iff.mp ht
      simp only [fuzzy_contains, contains_word, specLooseOccurs, htl,
        List.isEmpty_nil, Bool.true_or, if_true, hlowe, Bool.not_false,
        Bool.true_and, Bool.false_or]
      exact (any_range_nil_loose (lower word.toList) hlowne).symm
    · have hte : text.toList.isEmpty = false := Bool.eq_false_iff.mpr ht
      simp only [fuzzy_contains, specLooseOccurs, hte, hwe, Bool.or_self,
        Bool.false_eq_true, if_false, hlowe, Bool.not_false, Bool.true_and]
      cases hcw : contains_word text word
      · simp
      · simp

/-- **C4**: for every product, an unspecified query attribute (absent or the
empty string) makes the corresponding attribute sub-score exactly 0.5, and
an empty keyword list makes the keyword/name sub-score exactly 0.5; an
absent or malformed attribute never fails the request (the scorer is a
total function). -/
theorem neutral_subscores (product : Candidate) :
    _score_brand product none = 0.5 ∧ _score_brand product (some "") = 0.5 ∧
    _score_type product none = 0.5 ∧ _score_type product (some "") = 0.5 ∧
    _score_color product none = 0.5 ∧ _score_color product (some "") = 0.5 ∧
    _score_name product [] = 0.5 :=
  ⟨rfl, rfl, rfl, rfl, rfl, rfl, rfl⟩

/-- **C7**: the number of candidates fetched before scoring is at most
`candidate_limit = min 500 (page_size * 25)`, and the `total_count`
returned by `search_with_confidence` never exceeds that bound, however many
catalog rows match the predicate. -/
theorem search_with_confidence_candidate_cap (matching_rows : List Candidate)
    (parsed_query : ParsedQuery) (page page_size : ℕ) (min_confidence : ℚ) :
    (matching_rows.take (candidate_limit page_size)).length ≤
      min 500 (page_size * 25) ∧
    (search_with_confidence matching_rows parsed_query page page_size
        min_confidence).2 ≤ min 500 (page_size * 25) := by
  constructor
  · exact List.length_take_le _ _
  · show (rankCandidates _ _).length ≤ _
    unfold rankCandidates
    rw [sortByConfidenceDesc_length]
    calc (List.filter _ _).length
        ≤ (score_products_batch (matching_rows.take (candidate_limit page_size))
            parsed_query).length := List.length_filter_le _ _
      _ = (matching_rows.take (candidate_limit page_size)).length := by
          simp [score_products_batch]
      _ ≤ min 500 (page_size * 25) := List.length_take_le _ _

/-- **C8**: pagination metadata is exact integer ceiling division:
`total_pages = ⌈total_count / page_size⌉` (equivalently, the least `m` with
`total_count ≤ m * page_size`), `has_next = (page < total_pages)`,
`has_prev = (page > 1)`; and for `total_count = 47`, `page_size = 20`,
`page = 3` this gives `total_pages = 3`, `has_next = false`,
`has_prev = true`. -/
theorem pagination_meta_ceiling (total_count page page_size : ℕ)
    (h : 1 ≤ page_size) :
    (pagination_meta total_count page page_size).1 = total_count ⌈/⌉ page_size ∧
    total_count ≤ (pagination_meta total_count page page_size).1 * page_size ∧
    (∀ m : ℕ, total_count ≤ m * page_size →
      (pagination_meta total_count page page_size).1 ≤ m) ∧
    ((pagination_meta total_count page page_size).2.1 = true ↔
      page < (pagination_meta total_count page page_size).1) ∧
    ((pagination_meta total_count page page_size).2.2 = true ↔ 1 < page) ∧
    pagination_meta 47 3 20 = (3, false, true) := by
  have hpos : 0 < page_size := h
  have h1 : (pagination_meta total_count page page_size).1 =
      total_count ⌈/⌉ page_size := by
    simp [pagination_meta, Nat.ceilDiv_eq_add_pred_div]
  refine ⟨h1, ?_, ?_, by simp [pagination_meta], by simp [pagination_meta], by decide⟩
  · rw [h1]
    have := le_smul_ceilDiv hpos (b := total_count)
    simpa [smul_eq_mul, Nat.mul_comm] using this
  · intro m hm
    rw [h1]
    exact (ceilDiv_le_iff_le_smul hpos).mpr (by simpa [smul_eq_mul, Nat.mul_comm] using hm)

/-- Witness for **C8** at `total_count = 47`, `page = 3`, `page_size = 20`. -/
theorem pagination_meta_ceiling_witness :
    1 ≤ 20 ∧
    ((pagination_meta 47 3 20).1 = 47 ⌈/⌉ 20 ∧
     47 ≤ (pagination_meta 47 3 20).1 * 20 ∧
     (∀ m : ℕ, 47 ≤ m * 20 → (pagination_meta 47 3 20).1 ≤ m) ∧
     ((pagination_meta 47 3 20).2.1 = true ↔ 3 < (pagination_meta 47 3 20).1) ∧
     ((pagination_meta 47 3 20).2.2 = true ↔ 1 < 3) ∧
     pagination_meta 47 3 20 = (3, false, true)) :=
  ⟨by decide, pagination_meta_ceiling 47 3 20 (by decide)⟩

/-- **C9**: a single-identity lookup whose `article_id` matches zero rows
raises `ProductNotFoundException` instead of returning a value, whereas a
multi-row search whose predicate matches zero rows succeeds with an empty
item list and `total_count = 0`. -/
theorem get_by_id_not_found (rows : List Candidate) (article_id : ℤ)
    (page page_size : ℕ) (h : ∀ r ∈ rows, r.article_id ≠ article_id) :
    get_by_id rows article_id =
      Except.error (ShopSightException.productNotFound
        ("Product with ID " ++ toString article_id ++ " not found")) ∧
    search [] page page_size = ([], 0) := by
  constructor
  · have hf : rows.filter (fun r => r.article_id == article_id) = [] :=
      List.filter_eq_nil_iff.mpr (fun r hr => by simpa using h r hr)
    unfold get_by_id
    rw [hf]
  · simp [search]

/-- Witness for **C9**: a one-row catalog without article 7. -/
theorem get_by_id_not_found_witness :
    (∀ r ∈ ([{ article_id := 1 }] : List Candidate), r.article_id ≠ 7) ∧
    (get_by_id [{ article_id := 1 }] 7 =
      Except.error (ShopSightException.productNotFound
        ("Product with ID " ++ toString (7 : ℤ) ++ " not found")) ∧
     search [] 1 20 = ([], 0)) :=
  ⟨by decide, get_by_id_not_found [{ article_id := 1 }] 7 1 20 (by decide)⟩

lemma nikeShoe_brand : _score_brand nikeShoe nikeQuery.brand = 1 := by
  have hf : falsyOpt (some "Nike") = false := by decide
  have h : contains_word nikeShoe.name "Nike" = true := by decide
  simp [nikeQuery, _score_brand, hf, h]
  norm_num

lemma nikeShoe_type : _score_type nikeShoe nikeQuery.type = 1 := by
  have hf : falsyOpt (some "shoes") = false := by decide
  have h : exact_match nikeShoe.type "shoes" = true := by decide
  simp [nikeQuery, _score_type, hf, h]
  norm_num

lemma nikeShoe_color : _score_color nikeShoe nikeQuery.color = 0.5 := rfl

lemma nikeShoe_name : _score_name nikeShoe nikeQuery.keywords = 4/5 := by
  have h1 : contains_word nikeShoe.name "Nike" = true := by decide
  have h2 : contains_word nikeShoe.name "running" = true := by decide
  have h3 : contains_word nikeShoe.name "shoes" = true := by decide
  have h4 : contains_word nikeShoe.type "Nike" = false := by decide
  have h5 : contains_word nikeShoe.type "running" = false := by decide
  have h6 : contains_word nikeShoe.type "shoes" = true := by decide
  simp [nikeQuery, _score_name, List.countP_cons, List.countP_nil,
    h1, h2, h3, h4, h5, h6]
  norm_num [min_def]

lemma nikeShoe_score : score_product nikeShoe nikeQuery = 0.87 := by
  simp only [score_product, nikeShoe_brand, nikeShoe_type, nikeShoe_color,
    nikeShoe_name]
  norm_num [BRAND_WEIGHT, TYPE_WEIGHT, COLOR_WEIGHT, NAME_WEIGHT, round3,
    roundHalfEven, min_def, max_def]

lemma jannikeWedge_brand : _score_brand jannikeWedge nikeQuery.brand = 0 := by
  have hf : falsyOpt (some "Nike") = false := by decide
  have h1 : contains_word jannikeWedge.name "Nike" = false := by decide
  have h2 : contains_word jannikeWedge.index_name "Nike" = false := by decide
  have h3 : contains_word jannikeWedge.department "Nike" = false := by decide
  simp [nikeQuery, _score_brand, hf, h1, h2, h3]
  norm_num

lemma jannikeWedge_type : _score_type jannikeWedge nikeQuery.type = 0 := by
  have hf : falsyOpt (some "shoes") = false := by decide
  have h1 : exact_match jannikeWedge.type "shoes" = false := by decide
  have h2 : fuzzy_contains jannikeWedge.type "shoes" = false := by decide
  have h3 : contains_word jannikeWedge.name "shoes" = false := by decide
  have h4 : fuzzy_contains jannikeWedge.product_group_name "shoes" = false := by
    decide
  have h5 : fuzzy_contains jannikeWedge.garment_group_name "shoes" = false := by
    decide
  simp [nikeQuery, _score_type, hf, h1, h2, h3, h4, h5]
  norm_num

lemma jannikeWedge_color : _score_color jannikeWedge nikeQuery.color = 0.5 := rfl

lemma jannikeWedge_name : _score_name jannikeWedge nikeQuery.keywords = 0 := by
  have h1 : contains_word jannikeWedge.name "Nike" = false := by decide
  have h2 : contains_word jannikeWedge.name "running" = false := by decide
  have h3 : contains_word jannikeWedge.name "shoes" = false := by decide
  have h4 : contains_word jannikeWedge.type "Nike" = false := by decide
  have h5 : contains_word jannikeWedge.type "running" = false := by decide
  have h6 : contains_word jannikeWedge.type "shoes" = false := by decide
  simp [nikeQuery, _score_name, List.countP_cons, List.countP_nil,
    h1, h2, h3, h4, h5, h6]
  norm_num [min_def]

lemma jannikeWedge_score : score_product jannikeWedge nikeQuery = 0.1 := by
  simp only [score_product, jannikeWedge_brand, jannikeWedge_type,
    jannikeWedge_color, jannikeWedge_name]
  norm_num [BRAND_WEIGHT, TYPE_WEIGHT, COLOR_WEIGHT, NAME_WEIGHT, round3,
    roundHalfEven, min_def, max_def]

/-- **C5**: for the query `{brand: Nike, type: shoes}` with keywords
`[Nike, running, shoes]`: the candidate `{name: Nike Running Shoes Elite,
type: Shoes}` gets brand sub-score 1.0, type sub-score 1.0 and overall
confidence above 0.8, while the candidate `{name: Jannike wedge NEW,
type: Wedge}` (other string fields empty) gets brand sub-score 0.0, type
sub-score 0.0 and overall confidence below 0.5. -/
theorem end_to_end_scenarios :
    _score_brand nikeShoe nikeQuery.brand = 1 ∧
    _score_type nikeShoe nikeQuery.type = 1 ∧
    0.8 < score_product nikeShoe nikeQuery ∧
    _score_brand jannikeWedge nikeQuery.brand = 0 ∧
    _score_type jannikeWedge nikeQuery.type = 0 ∧
    score_product jannikeWedge nikeQuery < 0.5 :=
  ⟨nikeShoe_brand, nikeShoe_type, by rw [nikeShoe_score]; norm_num,
   jannikeWedge_brand, jannikeWedge_type, by rw [jannikeWedge_score]; norm_num⟩

/-- **C6**: for every scored-candidate sequence, threshold, `page ≥ 1` and
`page_size ≥ 1`, the ranking step keeps exactly the candidates with
`confidence ≥ min_confidence` (as a permutation of the filtered input),
sorts them descending by confidence with ties retaining original retrieval
order (the sublist at each confidence value is unchanged), reports
`total_count` equal to the size of the filtered set, returns the slice
`[(page-1)*page_size, (page-1)*page_size + page_size)`, an out-of-range
slice yields an empty page rather than an error, and adjacent returned
items have non-increasing confidence. -/
theorem rank_and_paginate_correct (scored : List Scored) (min_confidence : ℚ)
    (page page_size : ℕ) (hpage : 1 ≤ page) (hsize : 1 ≤ page_size) :
    List.Perm (rankCandidates scored min_confidence)
      (scored.filter fun p => min_confidence ≤ p.confidence_score) ∧
    (rankCandidates scored min_confidence).Pairwise
      (fun a b => b.confidence_score ≤ a.confidence_score) ∧
    (∀ c : ℚ,
      (rankCandidates scored min_confidence).filter
          (fun p => p.confidence_score == c) =
        (scored.filter fun p => min_confidence ≤ p.confidence_score).filter
          (fun p => p.confidence_score == c)) ∧
    (rank_and_paginate scored min_confidence page page_size).2 =
      (scored.filter fun p => min_confidence ≤ p.confidence_score).length ∧
    (rank_and_paginate scored min_confidence page page_size).1 =
      ((rankCandidates scored min_confidence).drop
        ((page - 1) * page_size)).take page_size ∧
    ((rankCandidates scored min_confidence).length ≤ (page - 1) * page_size →
      (rank_and_paginate scored min_confidence page page_size).1 = []) ∧
    (∀ (i : ℕ)
      (h : i + 1 < (rank_and_paginate scored min_confidence page page_size).1.length),
      ((rank_and_paginate scored min_confidence page page_size).1.get
          ⟨i + 1, h⟩).confidence_score ≤
        ((rank_and_paginate scored min_confidence page page_size).1.get
          ⟨i, Nat.lt_of_succ_lt h⟩).confidence_score) := by
  have hperm := sortByConfidenceDesc_perm
    (scored.filter fun p => min_confidence ≤ p.confidence_score)
  have hpw := sortByConfidenceDesc_pairwise
    (scored.filter fun p => min_confidence ≤ p.confidence_score)
  have hslice : (rank_and_paginate scored min_confidence page page_size).1 =
      ((rankCandidates scored min_confidence).drop
        ((page - 1) * page_size)).take page_size := rfl
  refine ⟨hperm, hpw, ?_, ?_, hslice, ?_, ?_⟩
  · intro c
    exact sortByConfidenceDesc_filter_eq _ c
  · show (rankCandidates scored min_confidence).length = _
    exact hperm.length_eq
  · intro hout
    rw [hslice, List.drop_eq_nil_of_le hout, List.take_nil]
  · intro i h
    have hsub : List.Sublist
        (rank_and_paginate scored min_confidence page page_size).1
        (rankCandidates scored min_confidence) := by
      rw [hslice]
      exact (List.take_sublist _ _).trans (List.drop_sublist _ _)
    have hpw' := hpw.sublist hsub
    exact List.pairwise_iff_get.mp hpw' ⟨i, Nat.lt_of_succ_lt h⟩ ⟨i + 1, h⟩
      (Nat.lt_succ_self i)

/-- Witness for **C6**: three scored candidates (two tied above the
threshold, one below), first page of size 2. -/
theorem rank_and_paginate_correct_witness :
    1 ≤ 1 ∧ 1 ≤ 2 ∧
    (List.Perm (rankCandidates rankWitnessInput 0.5)
      (rankWitnessInput.filter fun p => 0.5 ≤ p.confidence_score) ∧
    (rankCandidates rankWitnessInput 0.5).Pairwise
      (fun a b => b.confidence_score ≤ a.confidence_score) ∧
    (∀ c : ℚ,
      (rankCandidates rankWitnessInput 0.5).filter
          (fun p => p.confidence_score == c) =
        (rankWitnessInput.filter fun p => 0.5 ≤ p.confidence_score).filter
          (fun p => p.confidence_score == c)) ∧
    (rank_and_paginate rankWitnessInput 0.5 1 2).2 =
      (rankWitnessInput.filter fun p => 0.5 ≤ p.confidence_score).length ∧
    (rank_and_paginate rankWitnessInput 0.5 1 2).1 =
      ((rankCandidates rankWitnessInput 0.5).drop ((1 - 1) * 2)).take 2 ∧
    ((rankCandidates rankWitnessInput 0.5).length ≤ (1 - 1) * 2 →
      (rank_and_paginate rankWitnessInput 0.5 1 2).1 = []) ∧
    (∀ (i : ℕ)
      (h : i + 1 < (rank_and_paginate rankWitnessInput 0.5 1 2).1.length),
      ((rank_and_paginate rankWitnessInput 0.5 1 2).1.get
          ⟨i + 1, h⟩).confidence_score ≤
        ((rank_and_paginate rankWitnessInput 0.5 1 2).1.get
          ⟨i, Nat.lt_of_succ_lt h⟩).confidence_score)) :=
  ⟨by decide, by decide,
    rank_and_paginate_correct rankWitnessInput 0.5 1 2 (by decide) (by decide)⟩

/-- **C10**: for every keyword list, two filter mappings that agree on the
keys `department`, `color` and `type` produce the identical WHERE clause
and parameter list — entries under any other key (such as `price_max`)
have no effect on the constructed predicate. -/
theorem build_where_ignores_other_filters (keywords : List String)
    (f1 f2 : String → Option String)
    (hdep : f1 "department" = f2 "department")
    (hcol : f1 "color" = f2 "color")
    (hty : f1 "type" = f2 "type") :
    _build_where_clause keywords f1 = _build_where_clause keywords f2 := by
  unfold _build_where_clause presentFilter
  rw [hdep, hcol, hty]

/-- Witness for **C10**: a `price_max` entry does not change the predicate. -/
theorem build_where_ignores_other_filters_witness :
    (fun k : String => if k = "price_max" then some "100" else none) "department" =
      (fun _ : String => (none : Option String)) "department" ∧
    (fun k : String => if k = "price_max" then some "100" else none) "color" =
      (fun _ : String => (none : Option String)) "color" ∧
    (fun k : String => if k = "price_max" then some "100" else none) "type" =
      (fun _ : String => (none : Option String)) "type" ∧
    _build_where_clause ["nike"]
        (fun k => if k = "price_max" then some "100" else none) =
      _build_where_clause ["nike"] (fun _ => none) :=
  ⟨by decide, by decide, by decide,
    build_where_ignores_other_filters ["nike"] _ _ (by decide) (by decide) (by decide)⟩

end ShopSight
